import Mathlib

/-!
Verification of the SimpleSysMon process monitor (`src/sysmon.cpp`).

The development shallowly embeds the sampling-and-derivation core of the
monitor: the per-process snapshot reader (`read_proc`), the delta engine of
the main loop (lines 128-150), the ranking step (`std::sort` with one of
three comparators, lines 152-163), and the keyboard dispatch (lines 184-201).

Modelling conventions:
- C integer counters (`unsigned long`, `unsigned long long`) are `Nat`;
  the source never relies on wraparound (subtractions are guarded by `>=`
  comparisons), so `Nat` subtraction agrees with the guarded C subtraction.
- `long rss` is `Int`, `int` quantities that can go negative (the
  `highlight` cursor, the interval) are `Int`.
- The `double` percentage arithmetic is modelled exactly over `ℚ`.
- `std::map<int, unsigned long>` is an association list `List (Int × Nat)`
  with update-or-append insertion; only lookup and key-set facts are used.
- Reads of `/proc` are parameters: `statFs pid` is `some d` when
  `/proc/<pid>/stat` opens and yields more than 23 tokens (the two failure
  modes — unreadable file, short line — are observationally identical in the
  source: every counter field stays zero and the command stays empty);
  `uidFs pid` is the Uid from `/proc/<pid>/status` when readable;
  `uid_to_user` is the `getpwuid`-based resolver.
- `std::sort` is modelled by its C++ contract `IsSortResult`: the output is
  some permutation of the input that is sorted with respect to the
  comparator (consecutive elements never compare strictly out of order).
  Tie order is unspecified by the contract.
-/

/-- `ProcInfo` from the source: one process's raw counters plus the two
derived percentages. The `uid_t uid` field is uninitialized in the source
when `/proc/<pid>/status` is unreadable; it is modelled as 0. -/
structure ProcInfo where
  pid : Int
  uid : Nat
  user : String
  cmd : String
  utime : Nat
  stime : Nat
  rss : Int
  vsize : Nat
  cpu_percent : ℚ
  mem_percent : ℚ
  deriving DecidableEq, Repr

instance : Inhabited ProcInfo :=
  ⟨⟨0, 0, "", "", 0, 0, 0, 0, 0, 0⟩⟩

/-- The fields `read_proc` extracts from `/proc/<pid>/stat` when the file
opens and the line has more than 23 tokens: `toks[1]` (comm), `toks[13]`
(utime), `toks[14]` (stime), `toks[22]` (vsize), `toks[23]` (rss). -/
structure StatData where
  comm : String
  utime : Nat
  stime : Nat
  vsize : Nat
  rss : Int
  deriving DecidableEq, Repr

/-- `read_proc` (source lines 72-108): builds a `ProcInfo` for `pid`.
A failed stat read leaves every counter at its zero initializer and the
command empty; the process is still returned (never skipped). The comm
token is stripped of its parenthesized wrapper when present. -/
def read_proc (statFs : Int → Option StatData) (uidFs : Int → Option Nat)
    (uid_to_user : Nat → String) (pid : Int) : ProcInfo :=
  let base : ProcInfo :=
    { pid := pid, uid := 0, user := "", cmd := "", utime := 0, stime := 0,
      rss := 0, vsize := 0, cpu_percent := 0, mem_percent := 0 }
  let p1 : ProcInfo :=
    match statFs pid with
    | some d =>
        let comm :=
          if d.comm.front = '(' ∧ d.comm.back = ')' then
            (d.comm.drop 1).dropRight 1
          else d.comm
        { base with utime := d.utime, stime := d.stime, vsize := d.vsize,
                    rss := d.rss, cmd := comm }
    | none => base
  let p2 : ProcInfo :=
    match uidFs pid with
    | some u => { p1 with uid := u, user := uid_to_user u }
    | none => p1
  if p2.user = "" then { p2 with user := uid_to_user p2.uid } else p2

/-- The snapshot built by the main loop: one `ProcInfo` per enumerated pid,
in enumeration order (source lines 131-134, before enrichment). -/
def captureProcs (statFs : Int → Option StatData) (uidFs : Int → Option Nat)
    (uid_to_user : Nat → String) (pids : List Int) : List ProcInfo :=
  pids.map (read_proc statFs uidFs uid_to_user)

/-- Lookup in the modelled `std::map<int, unsigned long>`. -/
def mapLookup (m : List (Int × Nat)) (k : Int) : Option Nat :=
  (m.find? (fun p => p.1 = k)).map Prod.snd

/-- `m[k] = v` on the modelled `std::map`: update in place when the key is
present, append otherwise. -/
def mapInsert (m : List (Int × Nat)) (k : Int) (v : Nat) : List (Int × Nat) :=
  if m.any (fun p => p.1 = k) then
    m.map (fun p => if p.1 = k then (k, v) else p)
  else m ++ [(k, v)]

/-- `SamplingState`: the carry-forward state of the main loop, i.e. the
variables `prev_total_jiffies` and `prev_proc_jiffies` (source lines
124-125). -/
structure SamplingState where
  prev_total_jiffies : Nat
  prev_proc_jiffies : List (Int × Nat)
  deriving DecidableEq, Repr

/-- The per-process derivation of the loop body (source lines 135-146):
per-process tick delta clamped at zero, system tick delta clamped at zero,
guarded divisions for the two percentages. -/
def enrich (page_size mem_total_kb total_jiffies prev_total_jiffies : Nat)
    (m : List (Int × Nat)) (pi : ProcInfo) : ProcInfo :=
  let cur : Nat := pi.utime + pi.stime
  let prev : Nat :=
    match mapLookup m pi.pid with
    | some v => v
    | none => 0
  let delta : Nat := if prev ≤ cur then cur - prev else 0
  let total_delta : Nat :=
    if prev_total_jiffies ≤ total_jiffies then total_jiffies - prev_total_jiffies
    else 0
  let cpu_pct : ℚ :=
    if 0 < total_delta then 100 * (delta : ℚ) / (total_delta : ℚ) else 0
  let mem_pct : ℚ :=
    if 0 < mem_total_kb then
      100 * (((pi.rss * (page_size : Int) : Int) : ℚ) / 1024) / (mem_total_kb : ℚ)
    else 0
  { pi with cpu_percent := cpu_pct, mem_percent := mem_pct }

/-- The `for (int pid : pids)` loop of the loop body (source lines 133-149):
enrich each snapshot entry against the current map, push it, and write the
entry's current ticks back into the map. -/
def sampleLoop (page_size mem_total_kb total_jiffies prev_total_jiffies : Nat) :
    List ProcInfo → List (Int × Nat) → List ProcInfo × List (Int × Nat)
  | [], m => ([], m)
  | pi :: rest, m =>
      let cur : Nat := pi.utime + pi.stime
      let e := enrich page_size mem_total_kb total_jiffies prev_total_jiffies m pi
      let r := sampleLoop page_size mem_total_kb total_jiffies prev_total_jiffies
                 rest (mapInsert m pi.pid cur)
      (e :: r.1, r.2)

/-- One sampling cycle of the main loop (source lines 128-150): derive the
enriched process list from the snapshot and produce the next carry-forward
state (`prev_total_jiffies = total_jiffies`, the updated map). -/
def runCycle (page_size mem_total_kb total_jiffies : Nat) (st : SamplingState)
    (snapshot : List ProcInfo) : List ProcInfo × SamplingState :=
  let r := sampleLoop page_size mem_total_kb total_jiffies st.prev_total_jiffies
             snapshot st.prev_proc_jiffies
  (r.1, ⟨total_jiffies, r.2⟩)

/-- `SortMode` (source line 120). -/
inductive SortMode where
  | BY_CPU | BY_MEM | BY_PID
  deriving DecidableEq, Repr

/-- The keys the dispatch at source lines 185-201 reacts to. `getch()`
returning `ERR` (no pending input) is `Option.none` at the call site. -/
inductive Key where
  | up | down | kc | km | kp | plus | minus | kk | kq
  deriving DecidableEq, Repr

/-- The operator-adjustable UI state of the main loop: the selection cursor
`highlight`, the sampling interval `interval_s`, and the sort mode (source
lines 118-121). `highlight` and `interval_s` are C `int`s. -/
structure UiState where
  highlight : Int
  interval_s : Int
  sortmode : SortMode
  deriving DecidableEq, Repr

/-- The UI state at startup: `highlight = 0`, `interval_s = 2`,
`sortmode = BY_CPU` (source lines 118-121). -/
def initUi : UiState :=
  ⟨0, 2, SortMode.BY_CPU⟩

/-- Result of one keyboard dispatch: the updated UI state, whether `q`
requested loop exit, and the pid passed to `kill(pid, SIGTERM)` when the
kill branch fired. -/
structure InputResult where
  ui : UiState
  quitRequested : Bool
  killRequest : Option Int
  deriving DecidableEq, Repr

/-- The keyboard dispatch of the loop body (source lines 184-201). `procs`
is the ranked list rendered this cycle. The kill branch is guarded by
`highlight >= 0 && highlight < (int)procs.size()`; only then is
`procs[highlight]` read. -/
def handleInput (procs : List ProcInfo) (ui : UiState) (ch : Option Key) :
    InputResult :=
  match ch with
  | none => ⟨ui, false, none⟩
  | some Key.kq => ⟨ui, true, none⟩
  | some Key.up => ⟨{ ui with highlight := max 0 (ui.highlight - 1) }, false, none⟩
  | some Key.down =>
      ⟨{ ui with highlight := min ((procs.length : Int) - 1) (ui.highlight + 1) },
        false, none⟩
  | some Key.kc => ⟨{ ui with sortmode := SortMode.BY_CPU }, false, none⟩
  | some Key.km => ⟨{ ui with sortmode := SortMode.BY_MEM }, false, none⟩
  | some Key.kp => ⟨{ ui with sortmode := SortMode.BY_PID }, false, none⟩
  | some Key.plus => ⟨{ ui with interval_s := max 1 (ui.interval_s - 1) }, false, none⟩
  | some Key.minus => ⟨{ ui with interval_s := ui.interval_s + 1 }, false, none⟩
  | some Key.kk =>
      if 0 ≤ ui.highlight ∧ ui.highlight < (procs.length : Int) then
        ⟨ui, false, some ((procs.getD ui.highlight.toNat default).pid)⟩
      else ⟨ui, false, none⟩

/-- UI states reachable by the interactive loop: the startup state, closed
under one keyboard dispatch per cycle (with an arbitrary ranked list and an
arbitrary key or no key). -/
inductive ReachableUi : UiState → Prop where
  | init : ReachableUi initUi
  | step : ∀ s procs ch, ReachableUi s → ReachableUi (handleInput procs s ch).ui

/-- The comparator handed to `std::sort` for each sort mode (source lines
152-163): CPU percent descending, memory percent descending, pid ascending. -/
def cmpOf : SortMode → ProcInfo → ProcInfo → Bool
  | SortMode.BY_CPU => fun a b => decide (a.cpu_percent > b.cpu_percent)
  | SortMode.BY_MEM => fun a b => decide (a.mem_percent > b.mem_percent)
  | SortMode.BY_PID => fun a b => decide (a.pid < b.pid)

/-- The C++ contract of `std::sort(first, last, cmp)`: the output range is
a permutation of the input that is sorted with respect to `cmp` (no later
element compares strictly before its predecessor). Tie order is
unspecified: any output satisfying this contract is a legal result. -/
def IsSortResult (cmp : ProcInfo → ProcInfo → Bool)
    (input output : List ProcInfo) : Prop :=
  List.Perm output input ∧ List.Chain' (fun a b => cmp b a = false) output

/-- Stability as the spec states it: elements of the input that tie under
the comparator appear in the output in their original relative order. -/
def TiesKeepInputOrder (cmp : ProcInfo → ProcInfo → Bool)
    (input output : List ProcInfo) : Prop :=
  ∀ a b, a ∈ input → b ∈ input → cmp a b = false → cmp b a = false →
    input.indexOf a < input.indexOf b → output.indexOf a < output.indexOf b

/-- The whole-loop state: UI state plus sampling carry-forward state. -/
structure LoopState where
  ui : UiState
  samp : SamplingState
  deriving DecidableEq, Repr

/-- One full iteration of the main loop (source lines 127-203): sample and
derive, rank (the caller supplies `ranked`, constrained by `IsSortResult`
in the theorems), render (which reads `st.ui.highlight` unchanged — the
source has no re-clamp between sorting and rendering), then dispatch at
most one key. Returns the next loop state, the quit flag, and any kill
request. -/
def loopBody (page_size mem_total_kb total_jiffies : Nat)
    (snapshot ranked : List ProcInfo) (st : LoopState) (ch : Option Key) :
    LoopState × Bool × Option Int :=
  let r := runCycle page_size mem_total_kb total_jiffies st.samp snapshot
  let ir := handleInput ranked st.ui ch
  (⟨ir.ui, r.2⟩, ir.quitRequested, ir.killRequest)

/-- A concrete raw process sample used in concrete evaluations: pid 1,
5 accumulated user ticks, 3 resident pages. -/
def pEx : ProcInfo :=
  { pid := 1, uid := 0, user := "root", cmd := "init", utime := 5, stime := 0,
    rss := 3, vsize := 4096, cpu_percent := 0, mem_percent := 0 }

/-- A process that ties with `pB` on every percentage key (for tie-order
evaluations). -/
def pA : ProcInfo :=
  { pid := 1, uid := 0, user := "root", cmd := "a", utime := 0, stime := 0,
    rss := 0, vsize := 0, cpu_percent := 0, mem_percent := 0 }

/-- A process that ties with `pA` on every percentage key. -/
def pB : ProcInfo :=
  { pid := 2, uid := 0, user := "root", cmd := "b", utime := 0, stime := 0,
    rss := 0, vsize := 0, cpu_percent := 0, mem_percent := 0 }

/-- A process used in the pid-reuse evaluation: pid 1 with 10 accumulated
ticks, to be paired with a recorded prior of 1000 ticks. -/
def pReuse : ProcInfo :=
  { pid := 1, uid := 0, user := "root", cmd := "r", utime := 10, stime := 0,
    rss := 0, vsize := 0, cpu_percent := 0, mem_percent := 0 }

/-- A three-process snapshot (pids 1, 2, 3, all counters quiet) used to
evaluate a cycle whose list is shorter than the selection cursor. -/
def snap3 : List ProcInfo :=
  [pA, pB,
   { pid := 3, uid := 0, user := "root", cmd := "c", utime := 0, stime := 0,
     rss := 0, vsize := 0, cpu_percent := 0, mem_percent := 0 }]

/-- A `/proc/<pid>/stat` reader for which every per-process read fails. -/
def statNone : Int → Option StatData := fun _ => none

/-- A `/proc/<pid>/status` reader for which every per-process read fails. -/
def uidNone : Int → Option Nat := fun _ => none

/-- A user-name resolver that always falls back to the numeric id as text
(the behaviour of `uid_to_user` when `getpwuid` finds no entry). -/
def u2uEx : Nat → String := fun u => toString u

lemma enrich_cpu_zero_of_le (ps mk tj ptj : Nat) (m : List (Int × Nat))
    (pi : ProcInfo) (h : tj ≤ ptj) :
    (enrich ps mk tj ptj m pi).cpu_percent = 0 := by
  have htd : (if ptj ≤ tj then tj - ptj else 0) = 0 := by split <;> omega
  simp only [enrich, htd]
  simp

lemma sampleLoop_cpu_zero (ps mk tj ptj : Nat) (snap : List ProcInfo)
    (m : List (Int × Nat)) (h : tj ≤ ptj) :
    ∀ p ∈ (sampleLoop ps mk tj ptj snap m).1, p.cpu_percent = 0 := by
  induction snap generalizing m with
  | nil => simp [sampleLoop]
  | cons pi rest ih =>
      intro p hp
      simp only [sampleLoop, List.mem_cons] at hp
      rcases hp with rfl | hp
      · exact enrich_cpu_zero_of_le ps mk tj ptj m pi h
      · exact ih _ p hp

/-- C7: whenever the system-wide tick delta for a cycle is zero — including
when the system counter went backwards, which the source clamps to zero —
the derived `cpu_percent` is 0 for every process of that cycle, and the
guarded division never takes place. -/
theorem cpu_zero_when_no_system_tick_delta (ps mk tj : Nat) (st : SamplingState)
    (snap : List ProcInfo) (h : tj ≤ st.prev_total_jiffies) :
    ∀ p ∈ (runCycle ps mk tj st snap).1, p.cpu_percent = 0 := by
  intro p hp
  exact sampleLoop_cpu_zero ps mk tj st.prev_total_jiffies snap
    st.prev_proc_jiffies h p hp

theorem cpu_zero_when_no_system_tick_delta_witness :
    (enrich 4096 1024 50 50 [((1 : Int), 7)] pEx).cpu_percent = 0 :=
  cpu_zero_when_no_system_tick_delta 4096 1024 50 ⟨50, [((1 : Int), 7)]⟩ [pEx]
    (le_refl 50) (enrich 4096 1024 50 50 [((1 : Int), 7)] pEx)
    (by simp [runCycle, sampleLoop])

/-- C1 counterexample: on the first-ever cycle (empty prior per-process
map), with the startup total-jiffies reading at 1000, the cycle's reading
at 1010, and one process with 5 accumulated ticks, the derived
`cpu_percent` is 50, not 0: an absent prior is read as 0 ticks, so the
per-process delta is the process's full accumulated count, and the system
tick delta is 10. -/
theorem first_cycle_cpu_nonzero_cex :
    ((runCycle 4096 1024 1010 ⟨1000, []⟩ [pEx]).1.map ProcInfo.cpu_percent
        = [(50 : ℚ)]) ∧
    ¬ (∀ p ∈ (runCycle 4096 1024 1010 ⟨1000, []⟩ [pEx]).1, p.cpu_percent = 0) := by
  have hv : (enrich 4096 1024 1010 1000 [] pEx).cpu_percent = 50 := by
    simp [enrich, mapLookup, pEx]
    norm_num
  constructor
  · simp [runCycle, sampleLoop, hv]
  · intro hall
    have h1 := hall (enrich 4096 1024 1010 1000 [] pEx) (by simp [runCycle, sampleLoop])
    rw [hv] at h1
    norm_num at h1

/-- C1 (amended): on the first-ever cycle the absent prior map entries are
read as 0 ticks, so each per-process delta is the full accumulated count;
`cpu_percent` is 0 for every process of the cycle when the first cycle's
system tick delta is (clamped to) zero, i.e. when the cycle's total-jiffies
reading does not exceed the startup reading — and the cycle always
completes without a fault. -/
theorem first_cycle_cpu_zero_of_no_tick_advance (ps mk tj j0 : Nat)
    (snap : List ProcInfo) (h : tj ≤ j0) :
    ∀ p ∈ (runCycle ps mk tj ⟨j0, []⟩ snap).1, p.cpu_percent = 0 := by
  intro p hp
  exact sampleLoop_cpu_zero ps mk tj j0 snap [] h p hp

theorem first_cycle_cpu_zero_of_no_tick_advance_witness :
    (enrich 4096 1024 1000 1000 [] pEx).cpu_percent = 0 :=
  first_cycle_cpu_zero_of_no_tick_advance 4096 1024 1000 1000 [pEx] (le_refl 1000)
    (enrich 4096 1024 1000 1000 [] pEx) (by simp [runCycle, sampleLoop])

/-- C6: the derived `cpu_percent` is never negative, and when a pid's
current accumulated ticks are below its recorded prior ticks (pid reuse),
the per-process tick delta is clamped to 0, so `cpu_percent` is exactly 0. -/
theorem cpu_nonneg_and_reuse_clamped (ps mk tj ptj : Nat)
    (m : List (Int × Nat)) (pi : ProcInfo) :
    0 ≤ (enrich ps mk tj ptj m pi).cpu_percent ∧
    (∀ prev, mapLookup m pi.pid = some prev → pi.utime + pi.stime < prev →
      (enrich ps mk tj ptj m pi).cpu_percent = 0) := by
  constructor
  · simp only [enrich]
    split
    · positivity
    · exact le_refl 0
  · intro prev hl hlt
    have hnle : ¬ (prev ≤ pi.utime + pi.stime) := by omega
    simp [enrich, hl, hnle]

theorem cpu_nonneg_and_reuse_clamped_witness :
    (0 ≤ (enrich 4096 1024 1200 1000 [((1 : Int), 1000)] pReuse).cpu_percent) ∧
    (enrich 4096 1024 1200 1000 [((1 : Int), 1000)] pReuse).cpu_percent = 0 :=
  ⟨(cpu_nonneg_and_reuse_clamped 4096 1024 1200 1000 [((1 : Int), 1000)] pReuse).1,
   (cpu_nonneg_and_reuse_clamped 4096 1024 1200 1000 [((1 : Int), 1000)] pReuse).2
     1000 (by decide) (by decide)⟩

/-- C8: `mem_percent` equals `100 × (residentPages × pageSize) /
totalMemoryBytes` when total memory is positive (the source reads total
memory in kB, so `totalMemoryBytes = 1024 × mem_total_kb`), it is linear
in the resident page count (doubling `rss` with total memory fixed doubles
it), and it is exactly 0 when total memory is 0. -/
theorem mem_percent_formula (ps mk tj ptj : Nat) (m : List (Int × Nat))
    (pi : ProcInfo) :
    (0 < mk → (enrich ps mk tj ptj m pi).mem_percent
        = 100 * ((pi.rss : ℚ) * (ps : ℚ)) / (1024 * (mk : ℚ))) ∧
    ((enrich ps mk tj ptj m { pi with rss := 2 * pi.rss }).mem_percent
        = 2 * (enrich ps mk tj ptj m pi).mem_percent) ∧
    (mk = 0 → (enrich ps mk tj ptj m pi).mem_percent = 0) := by
  refine ⟨?_, ?_, ?_⟩
  · intro hmk
    have hmk' : (mk : ℚ) ≠ 0 := Nat.cast_ne_zero.mpr (by omega)
    simp only [enrich, if_pos hmk]
    push_cast
    field_simp
  · by_cases hmk : 0 < mk
    · simp only [enrich, if_pos hmk]
      push_cast
      ring
    · simp only [enrich, if_neg hmk]
      norm_num
  · intro h0
    subst h0
    simp [enrich]

theorem mem_percent_formula_witness :
    ((enrich 4096 1024 0 0 [] pEx).mem_percent
        = 100 * ((pEx.rss : ℚ) * ((4096 : Nat) : ℚ)) / (1024 * ((1024 : Nat) : ℚ))) ∧
    (enrich 4096 0 0 0 [] pEx).mem_percent = 0 :=
  ⟨(mem_percent_formula 4096 1024 0 0 [] pEx).1 (by decide),
   (mem_percent_formula 4096 0 0 0 [] pEx).2.2 rfl⟩

lemma mapInsert_keys_mem (m : List (Int × Nat)) (k0 : Int) (v : Nat) (k : Int) :
    k ∈ (mapInsert m k0 v).map Prod.fst ↔ k ∈ m.map Prod.fst ∨ k = k0 := by
  unfold mapInsert
  split
  · next hany =>
      rw [List.map_map]
      have hfst : (Prod.fst ∘ fun p : Int × Nat => if p.1 = k0 then (k0, v) else p)
          = Prod.fst := by
        funext p
        by_cases h : p.1 = k0 <;> simp [h]
      rw [hfst]
      constructor
      · exact Or.inl
      · rintro (h | rfl)
        · exact h
        · rcases List.any_eq_true.mp hany with ⟨p, hp, hpk⟩
          simp only [decide_eq_true_eq] at hpk
          exact List.mem_map.mpr ⟨p, hp, hpk⟩
  · simp

lemma sampleLoop_keys (ps mk tj ptj : Nat) (snap : List ProcInfo)
    (m : List (Int × Nat)) (k : Int) :
    k ∈ (sampleLoop ps mk tj ptj snap m).2.map Prod.fst ↔
      k ∈ m.map Prod.fst ∨ k ∈ snap.map ProcInfo.pid := by
  induction snap generalizing m with
  | nil => simp [sampleLoop]
  | cons pi rest ih =>
      simp only [sampleLoop, List.map_cons, List.mem_cons]
      rw [ih, mapInsert_keys_mem]
      tauto

/-- C2 counterexample: a cycle whose snapshot holds only pid 1, run from a
carry-forward map holding pid 2, leaves pid 2 in the carried map: the map
is updated in place, never rebuilt, so stale pids are retained and the map
is larger than the current process count. -/
theorem stale_pid_retained_cex :
    ((runCycle 4096 1024 10 ⟨0, [((2 : Int), 7)]⟩ [pEx]).2.prev_proc_jiffies.map
        Prod.fst = [(2 : Int), 1]) ∧
    ((2 : Int) ∉ [pEx].map ProcInfo.pid) ∧
    ((runCycle 4096 1024 10 ⟨0, [((2 : Int), 7)]⟩ [pEx]).2.prev_proc_jiffies.length
        = 2) ∧
    ([pEx].length = 1) := by
  refine ⟨by decide, by decide, by decide, rfl⟩

/-- C2 (amended): the carried-forward pid-to-previous-ticks mapping is
updated in place each cycle, not rebuilt: after a cycle its key set is the
union of the previous key set and the pids of the current snapshot, so
every current pid is present but pids absent from the snapshot are
retained, and the mapping can grow beyond the current process count. -/
theorem carry_map_keys_union (ps mk tj : Nat) (st : SamplingState)
    (snap : List ProcInfo) (k : Int) :
    k ∈ (runCycle ps mk tj st snap).2.prev_proc_jiffies.map Prod.fst ↔
      k ∈ st.prev_proc_jiffies.map Prod.fst ∨ k ∈ snap.map ProcInfo.pid :=
  sampleLoop_keys ps mk tj st.prev_total_jiffies snap st.prev_proc_jiffies k

/-- C9: the sampling interval starts at the default of 2; the decrease
command sets it to `max 1 (interval − 1)` (a floor of 1) and the increase
command adds 1, so every reachable state of the interactive loop has an
interval of at least 1. -/
theorem interval_floor :
    initUi.interval_s = 2 ∧
    (∀ procs ui, (handleInput procs ui (some Key.plus)).ui.interval_s
        = max 1 (ui.interval_s - 1)) ∧
    (∀ procs ui, (handleInput procs ui (some Key.minus)).ui.interval_s
        = ui.interval_s + 1) ∧
    (∀ s, ReachableUi s → 1 ≤ s.interval_s) := by
  refine ⟨rfl, fun _ _ => rfl, fun _ _ => rfl, ?_⟩
  intro s hs
  induction hs with
  | init => decide
  | step s procs ch _ ih =>
      cases ch with
      | none => exact ih
      | some key =>
          cases key with
          | up => exact ih
          | down => exact ih
          | kc => exact ih
          | km => exact ih
          | kp => exact ih
          | kq => exact ih
          | plus => simp only [handleInput]; omega
          | minus => simp only [handleInput]; omega
          | kk => simp only [handleInput]; split <;> exact ih

theorem interval_floor_witness : (1 : Int) ≤ initUi.interval_s :=
  interval_floor.2.2.2 initUi ReachableUi.init

/-- C10: a termination request is only issued for an in-range selection:
the kill branch emits a request only when `0 ≤ highlight < procs.length`
(so the guarded `procs[highlight]` access is in range and targets the
selected row's pid), an empty process list never produces a request, and a
kill never requests loop exit — only `q` does. -/
theorem kill_guarded (procs : List ProcInfo) (ui : UiState) (ch : Option Key) :
    ((handleInput procs ui ch).killRequest.isSome = true →
        0 ≤ ui.highlight ∧ ui.highlight < (procs.length : Int) ∧
        ui.highlight.toNat < procs.length ∧
        (handleInput procs ui ch).killRequest
          = some ((procs.getD ui.highlight.toNat default).pid)) ∧
    (procs = [] → (handleInput procs ui ch).killRequest = none) ∧
    ((handleInput procs ui ch).quitRequested = true → ch = some Key.kq) := by
  cases ch with
  | none =>
      exact ⟨by intro h; simp [handleInput] at h, fun _ => rfl,
        by intro h; simp [handleInput] at h⟩
  | some key =>
      cases key with
      | kk =>
          refine ⟨?_, ?_, ?_⟩
          · intro h
            simp only [handleInput] at h ⊢
            split at h
            · next hc =>
                refine ⟨hc.1, hc.2, by omega, ?_⟩
                rw [if_pos hc]
            · simp at h
          · intro hnil
            subst hnil
            simp only [handleInput, List.length_nil]
            rw [if_neg (by omega)]
          · intro h
            simp only [handleInput] at h
            split at h <;> simp at h
      | up =>
          exact ⟨by intro h; simp [handleInput] at h, fun _ => rfl,
            by intro h; simp [handleInput] at h⟩
      | down =>
          exact ⟨by intro h; simp [handleInput] at h, fun _ => rfl,
            by intro h; simp [handleInput] at h⟩
      | kc =>
          exact ⟨by intro h; simp [handleInput] at h, fun _ => rfl,
            by intro h; simp [handleInput] at h⟩
      | km =>
          exact ⟨by intro h; simp [handleInput] at h, fun _ => rfl,
            by intro h; simp [handleInput] at h⟩
      | kp =>
          exact ⟨by intro h; simp [handleInput] at h, fun _ => rfl,
            by intro h; simp [handleInput] at h⟩
      | plus =>
          exact ⟨by intro h; simp [handleInput] at h, fun _ => rfl,
            by intro h; simp [handleInput] at h⟩
      | minus =>
          exact ⟨by intro h; simp [handleInput] at h, fun _ => rfl,
            by intro h; simp [handleInput] at h⟩
      | kq =>
          exact ⟨by intro h; simp [handleInput] at h, fun _ => rfl, fun _ => rfl⟩

theorem kill_guarded_witness :
    (0 : Int) ≤ 0 ∧ (0 : Int) < (([pEx] : List ProcInfo).length : Int) ∧
    (0 : Int).toNat < ([pEx] : List ProcInfo).length ∧
    (handleInput [pEx] ⟨0, 2, SortMode.BY_CPU⟩ (some Key.kk)).killRequest
      = some (([pEx].getD ((0 : Int)).toNat default).pid) :=
  (kill_guarded [pEx] ⟨0, 2, SortMode.BY_CPU⟩ (some Key.kk)).1 (by decide)

/-- C3 counterexample: a cycle whose ranked list shrinks to 3 entries while
the cursor sits at 9, with no operator command that cycle, leaves the
cursor at 9: the source has no re-clamp after re-sorting, so the cursor
exceeds `length − 1` for that cycle's render (the claim expects 2). -/
theorem cursor_not_clamped_cex :
    IsSortResult (cmpOf SortMode.BY_PID)
      ((runCycle 4096 0 0 ⟨0, []⟩ snap3).1) snap3 ∧
    ((runCycle 4096 0 0 ⟨0, []⟩ snap3).1.length = 3) ∧
    ((loopBody 4096 0 0 snap3 snap3 ⟨⟨9, 2, SortMode.BY_PID⟩, ⟨0, []⟩⟩
        none).1.ui.highlight = 9) ∧
    ¬ ((loopBody 4096 0 0 snap3 snap3 ⟨⟨9, 2, SortMode.BY_PID⟩, ⟨0, []⟩⟩
        none).1.ui.highlight ≤ (3 : Int) - 1) := by
  have henr : (runCycle 4096 0 0 ⟨0, []⟩ snap3).1 = snap3 := rfl
  refine ⟨⟨?_, ?_⟩, ?_, rfl, by decide⟩
  · rw [henr]
  · simp only [snap3, List.chain'_cons, List.chain'_singleton, and_true]
    exact ⟨by decide, by decide⟩
  · rw [henr]
    rfl

/-- C3 (amended): the source never re-clamps the cursor after re-sorting:
with no operator command the cursor is unchanged (and can exceed
`length − 1` when the list shrinks); it moves only on the movement
commands, up giving `max 0 (h − 1)` and down giving
`min (length − 1) (h + 1)`, so a dispatch never raises it above
`max (max 0 h) (length − 1)`; out-of-range cursors are made harmless at
their only use, the bounds-checked kill access. -/
theorem cursor_semantics (procs : List ProcInfo) (ui : UiState) :
    ((handleInput procs ui none).ui.highlight = ui.highlight) ∧
    ((handleInput procs ui (some Key.up)).ui.highlight
        = max 0 (ui.highlight - 1)) ∧
    ((handleInput procs ui (some Key.down)).ui.highlight
        = min ((procs.length : Int) - 1) (ui.highlight + 1)) ∧
    (∀ ch, (handleInput procs ui ch).ui.highlight
        ≤ max (max 0 ui.highlight) ((procs.length : Int) - 1)) := by
  refine ⟨rfl, rfl, rfl, ?_⟩
  intro ch
  cases ch with
  | none => simp only [handleInput]; omega
  | some key =>
      cases key with
      | up => simp only [handleInput]; omega
      | down => simp only [handleInput]; omega
      | kc => simp only [handleInput]; omega
      | km => simp only [handleInput]; omega
      | kp => simp only [handleInput]; omega
      | plus => simp only [handleInput]; omega
      | minus => simp only [handleInput]; omega
      | kq => simp only [handleInput]; omega
      | kk => simp only [handleInput]; split <;> dsimp only <;> omega

/-- C5 counterexample: `std::sort` is not stable — for the two-element
input `[pA, pB]` whose CPU percentages tie, its contract admits the output
`[pB, pA]`, which satisfies the sort contract for the CPU key yet reverses
the input order of the tied pair. -/
theorem sort_not_stable_cex :
    IsSortResult (cmpOf SortMode.BY_CPU) [pA, pB] [pB, pA] ∧
    ¬ TiesKeepInputOrder (cmpOf SortMode.BY_CPU) [pA, pB] [pB, pA] := by
  constructor
  · refine ⟨List.Perm.swap pA pB [], ?_⟩
    rw [List.chain'_pair]
    decide
  · intro h
    have h1 := h pA pB (by decide) (by decide) (by decide) (by decide) (by decide)
    exact absurd h1 (by decide)

/-- C5 (amended): for every input and each sort key, any output admitted
by the `std::sort` contract is a permutation of the input with the same
pids (hence the three rankings of one snapshot are permutations of each
other), and each is sorted per its key — CPU and memory percent
non-increasing, pid non-decreasing; tie order is unspecified, as
`std::sort` carries no stability guarantee. -/
theorem rank_perm_and_sorted (input o1 o2 o3 : List ProcInfo)
    (h1 : IsSortResult (cmpOf SortMode.BY_CPU) input o1)
    (h2 : IsSortResult (cmpOf SortMode.BY_MEM) input o2)
    (h3 : IsSortResult (cmpOf SortMode.BY_PID) input o3) :
    (List.Perm o1 input) ∧ (List.Perm o2 input) ∧ (List.Perm o3 input) ∧
    (List.Perm o1 o2) ∧ (List.Perm o2 o3) ∧
    (List.Perm (o1.map ProcInfo.pid) (input.map ProcInfo.pid)) ∧
    (List.Perm (o2.map ProcInfo.pid) (input.map ProcInfo.pid)) ∧
    (List.Perm (o3.map ProcInfo.pid) (input.map ProcInfo.pid)) ∧
    (List.Chain' (fun a b => b.cpu_percent ≤ a.cpu_percent) o1) ∧
    (List.Chain' (fun a b => b.mem_percent ≤ a.mem_percent) o2) ∧
    (List.Chain' (fun a b => a.pid ≤ b.pid) o3) := by
  obtain ⟨hp1, hs1⟩ := h1
  obtain ⟨hp2, hs2⟩ := h2
  obtain ⟨hp3, hs3⟩ := h3
  refine ⟨hp1, hp2, hp3, hp1.trans hp2.symm, hp2.trans hp3.symm,
    hp1.map _, hp2.map _, hp3.map _, ?_, ?_, ?_⟩
  · refine hs1.imp ?_
    intro a b hab
    exact not_lt.mp (of_decide_eq_false hab)
  · refine hs2.imp ?_
    intro a b hab
    exact not_lt.mp (of_decide_eq_false hab)
  · refine hs3.imp ?_
    intro a b hab
    exact not_lt.mp (of_decide_eq_false hab)

theorem rank_perm_and_sorted_witness :
    (List.Perm [pA] [pA]) ∧ (List.Perm [pA] [pA]) ∧ (List.Perm [pA] [pA]) ∧
    (List.Perm [pA] [pA]) ∧ (List.Perm [pA] [pA]) ∧
    (List.Perm ([pA].map ProcInfo.pid) ([pA].map ProcInfo.pid)) ∧
    (List.Perm ([pA].map ProcInfo.pid) ([pA].map ProcInfo.pid)) ∧
    (List.Perm ([pA].map ProcInfo.pid) ([pA].map ProcInfo.pid)) ∧
    (List.Chain' (fun a b => b.cpu_percent ≤ a.cpu_percent) [pA]) ∧
    (List.Chain' (fun a b => b.mem_percent ≤ a.mem_percent) [pA]) ∧
    (List.Chain' (fun a b => a.pid ≤ b.pid) [pA]) :=
  rank_perm_and_sorted [pA] [pA] [pA] [pA]
    ⟨List.Perm.refl _, List.chain'_singleton _⟩
    ⟨List.Perm.refl _, List.chain'_singleton _⟩
    ⟨List.Perm.refl _, List.chain'_singleton _⟩

lemma read_proc_pid_eq (statFs : Int → Option StatData)
    (uidFs : Int → Option Nat) (uid_to_user : Nat → String) (pid : Int) :
    (read_proc statFs uidFs uid_to_user pid).pid = pid := by
  simp only [read_proc]
  rcases statFs pid with _ | d <;> rcases uidFs pid with _ | u <;>
    dsimp only <;> split <;> rfl

lemma read_proc_counters_of_stat_fail (statFs : Int → Option StatData)
    (uidFs : Int → Option Nat) (uid_to_user : Nat → String) (pid : Int)
    (h : statFs pid = none) :
    (read_proc statFs uidFs uid_to_user pid).utime = 0 ∧
    (read_proc statFs uidFs uid_to_user pid).stime = 0 ∧
    (read_proc statFs uidFs uid_to_user pid).rss = 0 ∧
    (read_proc statFs uidFs uid_to_user pid).vsize = 0 ∧
    (read_proc statFs uidFs uid_to_user pid).cmd = "" := by
  simp only [read_proc, h]
  rcases uidFs pid with _ | u <;> dsimp only <;> split <;>
    exact ⟨rfl, rfl, rfl, rfl, rfl⟩

/-- C4 counterexample: with the per-process read for pid 7 failing, pid 7
is NOT omitted from the snapshot: the returned sequence still contains an
entry for pid 7, and that entry is a zero-valued placeholder (all counters
0, empty command). -/
theorem failed_read_not_omitted_cex :
    ((captureProcs statNone uidNone u2uEx [7]).map ProcInfo.pid = [(7 : Int)]) ∧
    ((7 : Int) ∈ (captureProcs statNone uidNone u2uEx [7]).map ProcInfo.pid) ∧
    ((captureProcs statNone uidNone u2uEx [7]).length = 1) ∧
    ((read_proc statNone uidNone u2uEx 7).utime = 0) ∧
    ((read_proc statNone uidNone u2uEx 7).stime = 0) ∧
    ((read_proc statNone uidNone u2uEx 7).rss = 0) ∧
    ((read_proc statNone uidNone u2uEx 7).vsize = 0) ∧
    ((read_proc statNone uidNone u2uEx 7).cmd = "") :=
  ⟨rfl, by decide, rfl, rfl, rfl, rfl, rfl, rfl⟩

/-- C4 (amended): a process whose per-process counter read fails is not
omitted: the snapshot still returns exactly one entry per enumerated pid
(the snapshot as a whole succeeds), and the failed pid's entry is a
zero-valued placeholder carrying that pid — counters and command left at
their zero initializers. -/
theorem failed_read_yields_zero_entry (statFs : Int → Option StatData)
    (uidFs : Int → Option Nat) (uid_to_user : Nat → String)
    (pids : List Int) (pid : Int) (h : statFs pid = none) :
    ((captureProcs statFs uidFs uid_to_user pids).map ProcInfo.pid = pids) ∧
    ((captureProcs statFs uidFs uid_to_user pids).length = pids.length) ∧
    (pid ∈ pids → read_proc statFs uidFs uid_to_user pid
        ∈ captureProcs statFs uidFs uid_to_user pids) ∧
    ((read_proc statFs uidFs uid_to_user pid).pid = pid) ∧
    ((read_proc statFs uidFs uid_to_user pid).utime = 0) ∧
    ((read_proc statFs uidFs uid_to_user pid).stime = 0) ∧
    ((read_proc statFs uidFs uid_to_user pid).rss = 0) ∧
    ((read_proc statFs uidFs uid_to_user pid).vsize = 0) ∧
    ((read_proc statFs uidFs uid_to_user pid).cmd = "") := by
  obtain ⟨hu, hs, hr, hv, hc⟩ :=
    read_proc_counters_of_stat_fail statFs uidFs uid_to_user pid h
  refine ⟨?_, ?_, ?_, read_proc_pid_eq statFs uidFs uid_to_user pid,
    hu, hs, hr, hv, hc⟩
  · unfold captureProcs
    rw [List.map_map]
    have hid : (ProcInfo.pid ∘ read_proc statFs uidFs uid_to_user) = id := by
      funext x
      exact read_proc_pid_eq statFs uidFs uid_to_user x
    rw [hid, List.map_id]
  · unfold captureProcs
    exact List.length_map pids _
  · intro hmem
    exact List.mem_map_of_mem _ hmem

theorem failed_read_yields_zero_entry_witness :
    ((captureProcs statNone uidNone u2uEx [(7 : Int)]).map ProcInfo.pid
        = [(7 : Int)]) ∧
    ((captureProcs statNone uidNone u2uEx [(7 : Int)]).length
        = [(7 : Int)].length) ∧
    ((7 : Int) ∈ [(7 : Int)] → read_proc statNone uidNone u2uEx 7
        ∈ captureProcs statNone uidNone u2uEx [(7 : Int)]) ∧
    ((read_proc statNone uidNone u2uEx 7).pid = 7) ∧
    ((read_proc statNone uidNone u2uEx 7).utime = 0) ∧
    ((read_proc statNone uidNone u2uEx 7).stime = 0) ∧
    ((read_proc statNone uidNone u2uEx 7).rss = 0) ∧
    ((read_proc statNone uidNone u2uEx 7).vsize = 0) ∧
    ((read_proc statNone uidNone u2uEx 7).cmd = "") :=
  failed_read_yields_zero_entry statNone uidNone u2uEx [(7 : Int)] 7 rfl
